import Mathlib

/-!
Verification of the bullet-drag editor extension (src/main.ts).

The development shallowly embeds the plugin's data model and event handlers:

* JavaScript numbers that may be non-finite (NaN, infinities) are modelled as
  `Option Rat`: `none` stands for any non-finite value, `some q` for a finite
  one, which is exactly the distinction `Number.isFinite` draws in the code.
* The DOM and host application state touched by the handlers (document lines,
  active file, canvas leaves, element styles, body children) are collected in
  a `World` record; each event handler becomes a pure `World` transition.
* The two block-id regexes of `onMouseUp` anchor at end of string, so a match
  of either is equivalent to analysing the maximal trailing run of id
  characters of the line; `matchAnchorRev` implements that on the reversed
  character list.
* The asynchronous tail of `onMouseUp` (everything after the handler clears
  `this.dragState`, which contains the single `await`) is split into
  `dropFinalize`; `onMouseUp` is the composition of the synchronous prefix
  `onMouseUpSync` with it.
-/

namespace BulletDrag

/-- Model of a JavaScript number as far as `Number.isFinite` can observe it:
`some q` is a finite value, `none` is NaN or an infinity. -/
abbrev JSNum := Option Rat

/-- Whitespace class shared by the regex `\s` and `String.prototype.trim` /
`trimEnd` in JavaScript (the common members; all that the program ever feeds
these are ordinary space-separated markdown lines). -/
def isJsWhitespace (c : Char) : Bool :=
  c = ' ' || c = '\t' || c = '\n' || c = '\r' || c = '\x0b' || c = '\x0c' || c = '\u00A0'

/-- Character class of the regex `\w`: ASCII letters, digits and underscore. -/
def isWordChar (c : Char) : Bool :=
  c.isAlphanum || c = '_'

/-- Character class of the regex `[\w-]`: word characters plus the hyphen. -/
def isIdChar (c : Char) : Bool :=
  isWordChar c || c = '-'

/-- JavaScript `String.prototype.trimEnd`. -/
def jsTrimEnd (s : String) : String :=
  String.mk (s.data.reverse.dropWhile isJsWhitespace).reverse

/-- JavaScript `String.prototype.trim`. -/
def jsTrim (s : String) : String :=
  String.mk ((s.data.dropWhile isJsWhitespace).reverse.dropWhile isJsWhitespace).reverse

/-- JavaScript `s.startsWith(pre)`, on the character lists. -/
def strStartsWith (s pre : String) : Bool :=
  pre.data.isPrefixOf s.data

/-- Matcher for the anchored regexes `/\s\^(\w+)$/` and `/\s\^([\w-]+)$/`,
parametrised by the character class of the capture group and working on the
reversed character list of the line.  Because the pattern is anchored at the
end of the string and the capture class contains neither `^` nor whitespace,
`String.prototype.match` succeeds exactly when the maximal trailing run of
capture-class characters is non-empty and is preceded by `^` preceded by a
whitespace character, and the capture is that trailing run. -/
def matchAnchorRev (wordP : Char → Bool) (rev : List Char) : Option String :=
  if rev.takeWhile wordP ≠ [] ∧ (rev.dropWhile wordP).head? = some '^' ∧
      (rev.dropWhile wordP).tail.head?.any isJsWhitespace then
    some (String.mk (rev.takeWhile wordP).reverse)
  else none

/-- Result of `lineText.match(regex)` for the two trailing-anchor regexes of
`onMouseUp`: `some id` is a match with capture group `id`, `none` no match. -/
def matchTrailingAnchor (wordP : Char → Bool) (s : String) : Option String :=
  matchAnchorRev wordP s.data.reverse

/-- Maximum preview text length (`MAX_TEXT_LENGTH` in src/main.ts). -/
def MAX_TEXT_LENGTH : Nat := 30

/-- Pixel distance the pointer must travel before a drag starts
(`DRAG_THRESHOLD` in src/main.ts). -/
def DRAG_THRESHOLD : Rat := 5

/-- Embedding of `truncateText` from src/main.ts:
`text.length <= maxLen ? text : text.slice(0, maxLen - 3) + "..."`. -/
def truncateText (text : String) (maxLen : Nat) : String :=
  if text.length ≤ maxLen then text
  else String.mk (text.data.take (maxLen - 3)) ++ "..."

/-- Embedding of `generateBulletId` from src/main.ts.  The two host-supplied
numbers are the values of `Date.now()` and `Math.floor(Math.random() * 10000)`
at the moment of the call. -/
def generateBulletId (now rnd : Nat) : String :=
  toString now ++ "-" ++ toString rnd

/-- Line rewrite performed by `updateBulletInEditor` in src/main.ts:
`lineText.trimEnd() + ` followed by a space, a caret and the id. -/
def taggedLine (lineText id : String) : String :=
  jsTrimEnd lineText ++ " ^" ++ id

/-- Embedding of `updateBulletInEditor` from src/main.ts: replaces the content
of line `lineNumber` with the tagged line via `editor.setLine`. -/
def updateBulletInEditor (lineNumber : Nat) (lineText id : String)
    (lines : List String) : List String :=
  lines.set lineNumber (taggedLine lineText id)

/-- Embedding of `file.name.replace(/\.md$/, "")` from src/main.ts. -/
def stripMdExt (name : String) : String :=
  if name.endsWith ".md" then name.dropRight 3 else name

/-- Block reference link built in `onMouseUp`. -/
def blockLink (fileName id : String) : String :=
  "![[" ++ stripMdExt fileName ++ "#^" ++ id ++ "]]"

/-- JavaScript `String.prototype.includes`, on character lists: does `pat`
occur contiguously inside the list? -/
def listIncludes (pat : List Char) : List Char → Bool
  | [] => pat.isEmpty
  | c :: rest => pat.isPrefixOf (c :: rest) || listIncludes pat rest

/-- JavaScript `s.includes(pat)`. -/
def strIncludes (s pat : String) : Bool :=
  listIncludes pat.data s.data

/-- The one error message text swallowed by the global error handler. -/
def resizeObserverLoopMsg : String :=
  "ResizeObserver loop completed with undelivered notifications"

/-- Error event as the global handler observes it: `message` may be absent. -/
structure ErrorEvent where
  message : Option String

/-- JavaScript truthiness of an optional string property: absent and the empty
string are falsy. -/
def jsTruthy : Option String → Bool
  | none => false
  | some s => !(s = "")

/-- Observable outcome of the global error handler: whether
`stopImmediatePropagation` was invoked, and the returned boolean. -/
structure HandlerOutcome where
  stoppedPropagation : Bool
  returnValue : Bool
deriving DecidableEq

/-- Embedding of `globalErrorHandler` from src/main.ts:
`if (event.message && event.message.includes(...)) then stop and return false
else return true`. -/
def globalErrorHandler (event : ErrorEvent) : HandlerOutcome :=
  if jsTruthy event.message && strIncludes (event.message.getD "") resizeObserverLoopMsg then
    { stoppedPropagation := true, returnValue := false }
  else
    { stoppedPropagation := false, returnValue := true }

/-- Style properties of a DOM element that the plugin reads or writes. -/
structure ElemStyle where
  cursor : String := ""
  userSelect : String := ""
  left : Option Rat := none
  top : Option Rat := none

/-- Embedding of the `DragState` interface of src/main.ts.  `sourceEl` and
`previewEl` are DOM element identifiers; the editor handle of the source is
represented by the world's line list.  The coordinates stored at mousedown
are finite because the handler checked `Number.isFinite` before storing. -/
structure DragState where
  initialX : Rat
  initialY : Rat
  dragging : Bool
  sourceEl : Nat
  previewEl : Option Nat
  lineNumber : Nat
  rawLineText : String

/-- Active file as `app.workspace.getActiveFile()` reports it. -/
structure FileInfo where
  name : String
  extension : String

/-- Screen bounding box of a canvas leaf (`getBoundingClientRect`). -/
structure CanvasRect where
  left : Rat
  right : Rat
  top : Rat
  bottom : Rat

/-- One leaf returned by `getLeavesOfType("canvas")`.  `viewOk` is the check
`canvasView?.getViewType && canvasView.getViewType() === "canvas" &&
canvasView.containerEl`; `hasPosFromEvt` is
`canvasView.canvas && typeof canvasView.canvas.posFromEvt === "function"`;
`posFromEvt` is the host's screen-to-canvas conversion result for the drop
event (a pair of JavaScript numbers that may be non-finite). -/
structure CanvasSurface where
  viewOk : Bool
  rect : CanvasRect
  hasPosFromEvt : Bool
  posFromEvt : JSNum × JSNum

/-- A node created on a canvas by `canvas.createTextNode`. -/
structure CanvasNode where
  pos : Rat × Rat
  text : String
  width : Rat
  height : Rat

/-- Host and DOM state the handlers read and write.  `posLineAt` is the
composition `cm.posAtCoords` / `cm.state.doc.lineAt(...).number - 1` mapping
screen coordinates to the 0-based line number (or `none` outside the content
area); `activeMarkdownView` is whether `getActiveViewOfType(MarkdownView)`
yields a view with an editor; `cmAvailable` whether `view.editor.cm` exists. -/
structure World where
  dragState : Option DragState
  lines : List String
  activeFile : Option FileInfo
  activeMarkdownView : Bool
  cmAvailable : Bool
  posLineAt : Rat × Rat → Option Nat
  canvases : List CanvasSurface
  nodes : List CanvasNode
  styles : Nat → ElemStyle
  bodyChildren : List Nat
  nextElemId : Nat

/-- Pointwise style update of one element. -/
def setStyle (w : World) (el : Nat) (f : ElemStyle → ElemStyle) : World :=
  { w with styles := fun i => if i = el then f (w.styles i) else w.styles i }

/-- Mouse event fields the handlers consult.  `targetClosestCmLine` is the
result of `(e.target as HTMLElement).closest(".cm-line")`. -/
structure MouseEvent where
  altKey : Bool
  clientX : JSNum
  clientY : JSNum
  targetClosestCmLine : Option Nat

/-- Embedding of `onMouseDown` from src/main.ts.  Each early `return` of the
source becomes a branch yielding the unchanged world. -/
def onMouseDown (e : MouseEvent) (w : World) : World :=
  if !e.altKey then w
  else
    match e.clientX, e.clientY with
    | some x, some y =>
      if !w.activeMarkdownView then w
      else if !w.cmAvailable then w
      else
        match w.posLineAt (x, y) with
        | none => w
        | some lineNumber =>
          let rawLineText := w.lines.getD lineNumber ""
          if !strStartsWith (jsTrim rawLineText) "-" then w
          else
            match e.targetClosestCmLine with
            | none => w
            | some el =>
              let w1 := setStyle w el
                (fun s => { s with cursor := "grab", userSelect := "none" })
              let st : DragState :=
                { initialX := x, initialY := y, dragging := false,
                  sourceEl := el, previewEl := none,
                  lineNumber := lineNumber, rawLineText := rawLineText }
              { w1 with dragState := some st }
    | _, _ => w

/-- Embedding of `onMouseMove` from src/main.ts.  The source compares
`Math.sqrt(dx*dx + dy*dy) > DRAG_THRESHOLD`; on non-negative reals that is
equivalent to `dx*dx + dy*dy > DRAG_THRESHOLD^2`, which is how the squared
form appears here (avoiding an irrational square root in the model). -/
def onMouseMove (e : MouseEvent) (w : World) : World :=
  match w.dragState with
  | none => w
  | some st =>
    match e.clientX, e.clientY with
    | some x, some y =>
      let dx := x - st.initialX
      let dy := y - st.initialY
      let w1 :=
        if !st.dragging && dx * dx + dy * dy > DRAG_THRESHOLD * DRAG_THRESHOLD then
          let pid := w.nextElemId
          let wa := setStyle w st.sourceEl (fun s => { s with cursor := "grabbing" })
          { wa with
              bodyChildren := wa.bodyChildren ++ [pid],
              nextElemId := pid + 1,
              dragState := some { st with dragging := true, previewEl := some pid } }
        else w
      match w1.dragState with
      | some st1 =>
        match st1.previewEl with
        | some p =>
          if st1.dragging then
            setStyle w1 p (fun s => { s with left := some (x + 10), top := some (y + 10) })
          else w1
        | none => w1
      | none => w1
    | _, _ => w

/-- Locals of `onMouseUp` captured before `this.dragState` is cleared; the
asynchronous remainder of the handler only ever reads these. -/
structure Pending where
  dragging : Bool
  lineNumber : Nat
  rawLineText : String
  clientX : JSNum
  clientY : JSNum

/-- Synchronous prefix of `onMouseUp` from src/main.ts: style reset on the
source element, preview removal, and clearing of the shared drag-state field,
all of which happen before the handler can reach its `await`.  Returns the
captured locals the remainder of the handler runs on, or `none` when there
was no drag state and the handler returned immediately. -/
def onMouseUpSync (e : MouseEvent) (w : World) : World × Option Pending :=
  match w.dragState with
  | none => (w, none)
  | some st =>
    let w1 := setStyle w st.sourceEl (fun s => { s with userSelect := "", cursor := "" })
    let w2 :=
      match st.previewEl with
      | some p => { w1 with bodyChildren := w1.bodyChildren.erase p }
      | none => w1
    ({ w2 with dragState := none },
     some { dragging := st.dragging, lineNumber := st.lineNumber,
            rawLineText := st.rawLineText, clientX := e.clientX, clientY := e.clientY })

/-- Embedding of `addCanvasNode` from src/main.ts: find the first canvas leaf
whose bounding box contains the drop point, then create a text node at the
converted coordinates if the conversion API exists and yields finite values. -/
def rectContains (r : CanvasRect) (x y : Rat) : Bool :=
  decide (r.left ≤ x) && decide (x ≤ r.right) && decide (r.top ≤ y) && decide (y ≤ r.bottom)

/-- Embedding of `addCanvasNode` (src/main.ts lines 420-460). -/
def addCanvasNode (linkReference : String) (x y : Rat) (w : World) : World :=
  match w.canvases.find? (fun c => c.viewOk && rectContains c.rect x y) with
  | some c =>
    if c.hasPosFromEvt then
      match c.posFromEvt with
      | (some cx, some cy) =>
        { w with nodes := w.nodes ++
            [{ pos := (cx, cy), text := linkReference, width := 200, height := 50 }] }
      | _ => w
    else w
  | none => w

/-- Asynchronous remainder of `onMouseUp` from src/main.ts (everything after
the handler cleared `this.dragState`): the dragging check, the finiteness
check on the drop coordinates, the markdown-file check, anchor resolution
via the two regexes (with `updateBulletInEditor` when both miss), and the
canvas node creation.  `now` and `rnd` are the host-supplied values of
`Date.now()` and `Math.floor(Math.random() * 10000)`. -/
def dropFinalize (now rnd : Nat) (p : Pending) (w : World) : World :=
  if p.dragging then
    match p.clientX, p.clientY with
    | some x, some y =>
      match w.activeFile with
      | some file =>
        if file.extension = "md" then
          match matchTrailingAnchor isWordChar p.rawLineText with
          | some id => addCanvasNode (blockLink file.name id) x y w
          | none =>
            match matchTrailingAnchor isIdChar p.rawLineText with
            | some id => addCanvasNode (blockLink file.name id) x y w
            | none =>
              let id := generateBulletId now rnd
              addCanvasNode (blockLink file.name id) x y
                { w with lines := updateBulletInEditor p.lineNumber p.rawLineText id w.lines }
        else w
      | none => w
    | _, _ => w
  else w

/-- Embedding of the whole `onMouseUp` handler: the synchronous prefix, then
the finalization on the captured locals. -/
def onMouseUp (now rnd : Nat) (e : MouseEvent) (w : World) : World :=
  match onMouseUpSync e w with
  | (w1, none) => w1
  | (w1, some p) => dropFinalize now rnd p w1

/-- Embedding of `onunload` from src/main.ts: remove a lingering preview
element if a drag was in progress, then clear the drag-state field.
(Listener deregistration has no counterpart in the model.) -/
def onunload (w : World) : World :=
  let w1 :=
    match w.dragState with
    | some st =>
      match st.previewEl with
      | some p => { w with bodyChildren := w.bodyChildren.erase p }
      | none => w
    | none => w
  { w1 with dragState := none }

/-! Helper lemmas about the character classes and the anchor matcher. -/

lemma takeWhile_append_stop (p : Char → Bool) :
    ∀ (l1 : List Char) {c : Char} (l2 : List Char),
      (∀ a ∈ l1, p a = true) → p c = false →
      (l1 ++ c :: l2).takeWhile p = l1 := by
  intro l1
  induction l1 with
  | nil => intro c l2 _ hc; simp [List.takeWhile_cons, hc]
  | cons a t ih =>
    intro c l2 hall hc
    have ha : p a = true := hall a (by simp)
    simp only [List.cons_append, List.takeWhile_cons, ha, if_true]
    rw [ih l2 (fun b hb => hall b (by simp [hb])) hc]

lemma dropWhile_append_stop (p : Char → Bool) :
    ∀ (l1 : List Char) {c : Char} (l2 : List Char),
      (∀ a ∈ l1, p a = true) → p c = false →
      (l1 ++ c :: l2).dropWhile p = c :: l2 := by
  intro l1
  induction l1 with
  | nil => intro c l2 _ hc; simp [List.dropWhile_cons, hc]
  | cons a t ih =>
    intro c l2 hall hc
    have ha : p a = true := hall a (by simp)
    simp only [List.cons_append, List.dropWhile_cons, ha, if_true]
    exact ih l2 (fun b hb => hall b (by simp [hb])) hc

lemma isWordChar_of_isDigit {c : Char} (h : c.isDigit = true) : isWordChar c = true := by
  simp [isWordChar, Char.isAlphanum, h]

lemma isIdChar_of_isWordChar {c : Char} (h : isWordChar c = true) : isIdChar c = true := by
  simp [isIdChar, h]

lemma isWordChar_hyphen_false : isWordChar '-' = false := by decide

lemma isIdChar_hyphen : isIdChar '-' = true := by decide

lemma isIdChar_caret_false : isIdChar '^' = false := by decide

lemma isWordChar_caret_false : isWordChar '^' = false := by decide

lemma isJsWhitespace_space : isJsWhitespace ' ' = true := by decide

lemma digitChar_isDigit {m : Nat} (h : m < 10) : (Nat.digitChar m).isDigit = true := by
  interval_cases m <;> decide

lemma toDigitsCore_all_digits :
    ∀ (fuel n : Nat) (ds : List Char), (∀ c ∈ ds, c.isDigit = true) →
      ∀ c ∈ Nat.toDigitsCore 10 fuel n ds, c.isDigit = true := by
  intro fuel
  induction fuel with
  | zero => intro n ds h c hc; exact h c hc
  | succ f ih =>
    intro n ds h
    have hcons : ∀ c ∈ Nat.digitChar (n % 10) :: ds, c.isDigit = true := by
      intro c hc
      rcases List.mem_cons.mp hc with rfl | hc
      · exact digitChar_isDigit (Nat.mod_lt n (by norm_num))
      · exact h c hc
    simp only [Nat.toDigitsCore]
    split
    · exact hcons
    · exact ih (n / 10) (Nat.digitChar (n % 10) :: ds) hcons

lemma natRepr_all_digits (n : Nat) : ∀ c ∈ (toString n).data, c.isDigit = true := by
  have hrepr : (toString n).data = Nat.toDigitsCore 10 (n + 1) n [] := rfl
  rw [hrepr]
  exact toDigitsCore_all_digits (n + 1) n [] (by intro c hc; simp at hc)

lemma generateBulletId_data (now rnd : Nat) :
    (generateBulletId now rnd).data = (toString now).data ++ '-' :: (toString rnd).data := by
  show ((toString now).data ++ "-".data) ++ (toString rnd).data
      = (toString now).data ++ '-' :: (toString rnd).data
  rw [List.append_assoc]
  rfl

lemma generateBulletId_all_idChar (now rnd : Nat) :
    ∀ c ∈ (generateBulletId now rnd).data, isIdChar c = true := by
  intro c hc
  rw [generateBulletId_data] at hc
  rcases List.mem_append.mp hc with hc | hc
  · exact isIdChar_of_isWordChar (isWordChar_of_isDigit (natRepr_all_digits now c hc))
  · rcases List.mem_cons.mp hc with rfl | hc
    · exact isIdChar_hyphen
    · exact isIdChar_of_isWordChar (isWordChar_of_isDigit (natRepr_all_digits rnd c hc))

lemma generateBulletId_data_ne_nil (now rnd : Nat) : (generateBulletId now rnd).data ≠ [] := by
  rw [generateBulletId_data]
  intro h
  exact List.not_mem_nil '-' (h ▸ List.mem_append.mpr (Or.inr (List.mem_cons_self _ _)))

lemma tagged_data_reverse (s id : String) :
    (s ++ " ^" ++ id).data.reverse = id.data.reverse ++ '^' :: ' ' :: s.data.reverse := by
  show ((s.data ++ " ^".data) ++ id.data).reverse
      = id.data.reverse ++ '^' :: ' ' :: s.data.reverse
  rw [List.reverse_append, List.reverse_append]
  rfl

/-- A line ending in a space, a caret and a non-empty run of id characters is
matched by the broad regex `/\s\^([\w-]+)$/` with that run as the capture. -/
lemma matchTrailingAnchor_id_append (s id : String)
    (hid : ∀ c ∈ id.data, isIdChar c = true) (hne : id.data ≠ []) :
    matchTrailingAnchor isIdChar (s ++ " ^" ++ id) = some id := by
  unfold matchTrailingAnchor matchAnchorRev
  rw [tagged_data_reverse]
  have hall : ∀ a ∈ id.data.reverse, isIdChar a = true := by
    intro a ha; exact hid a (List.mem_reverse.mp ha)
  rw [dropWhile_append_stop isIdChar id.data.reverse (' ' :: s.data.reverse) hall
      isIdChar_caret_false]
  rw [takeWhile_append_stop isIdChar id.data.reverse (' ' :: s.data.reverse) hall
      isIdChar_caret_false]
  rw [if_pos]
  · rw [List.reverse_reverse]
  · refine ⟨?_, rfl, rfl⟩
    intro h
    exact hne (by simpa using congrArg List.reverse h)

/-- A line ending in a space, a caret and a freshly generated id is never
matched by the narrow regex `/\s\^(\w+)$/`: the hyphen inside the id stops the
`\w+` run before it can reach the caret. -/
lemma matchTrailingAnchor_word_gen_none (s : String) (now rnd : Nat) :
    matchTrailingAnchor isWordChar (s ++ " ^" ++ generateBulletId now rnd) = none := by
  unfold matchTrailingAnchor matchAnchorRev
  rw [tagged_data_reverse, generateBulletId_data]
  have hsplit : ((toString now).data ++ '-' :: (toString rnd).data).reverse
      = (toString rnd).data.reverse ++ '-' :: (toString now).data.reverse := by
    simp
  rw [hsplit, List.append_assoc, List.cons_append]
  have hall : ∀ a ∈ (toString rnd).data.reverse, isWordChar a = true := by
    intro a ha
    exact isWordChar_of_isDigit (natRepr_all_digits rnd a (List.mem_reverse.mp ha))
  rw [dropWhile_append_stop isWordChar (toString rnd).data.reverse _ hall
      isWordChar_hyphen_false]
  rw [if_neg]
  intro hcond
  have hh : some '-' = some '^' := hcond.2.1
  exact absurd (Option.some.inj hh) (by decide)

/-- A match of the narrow regex `/\s\^(\w+)$/` is also a match of the broad
regex `/\s\^([\w-]+)$/` with the same capture: every `\w` character is a
`[\w-]` character and the maximal trailing runs coincide because the run is
delimited by the caret in both cases. -/
lemma matchTrailingAnchor_word_imp_id {s id : String}
    (h : matchTrailingAnchor isWordChar s = some id) :
    matchTrailingAnchor isIdChar s = some id := by
  unfold matchTrailingAnchor matchAnchorRev at h ⊢
  by_cases hcond : s.data.reverse.takeWhile isWordChar ≠ [] ∧
      (s.data.reverse.dropWhile isWordChar).head? = some '^' ∧
      (s.data.reverse.dropWhile isWordChar).tail.head?.any isJsWhitespace = true
  · rw [if_pos hcond] at h
    obtain ⟨hnil, hhead, hws⟩ := hcond
    rcases hdrop : s.data.reverse.dropWhile isWordChar with _ | ⟨a, t⟩
    · rw [hdrop] at hhead
      exact Option.noConfusion hhead
    · rw [hdrop] at hhead hws
      have ha : a = '^' := Option.some.inj hhead
      subst ha
      rcases ht : t with _ | ⟨c, t2⟩
      · rw [ht] at hws
        exact Bool.noConfusion hws
      · rw [ht] at hdrop hws
        have hwsc : isJsWhitespace c = true := hws
        have hdecomp : s.data.reverse
            = s.data.reverse.takeWhile isWordChar ++ '^' :: c :: t2 := by
          conv_lhs => rw [← List.takeWhile_append_dropWhile isWordChar s.data.reverse]
          rw [hdrop]
        have hallw : ∀ b ∈ s.data.reverse.takeWhile isWordChar, isWordChar b = true :=
          fun b hb => List.mem_takeWhile_imp hb
        have halli : ∀ b ∈ s.data.reverse.takeWhile isWordChar, isIdChar b = true :=
          fun b hb => isIdChar_of_isWordChar (hallw b hb)
        have htake : s.data.reverse.takeWhile isIdChar
            = s.data.reverse.takeWhile isWordChar := by
          conv_lhs => rw [hdecomp]
          exact takeWhile_append_stop isIdChar _ _ halli isIdChar_caret_false
        have hdropi : s.data.reverse.dropWhile isIdChar = '^' :: c :: t2 := by
          conv_lhs => rw [hdecomp]
          exact dropWhile_append_stop isIdChar _ _ halli isIdChar_caret_false
        rw [hdropi, htake]
        rw [if_pos ⟨hnil, rfl, hwsc⟩]
        exact h
  · rw [if_neg hcond] at h
    exact Option.noConfusion h

/-! Helper lemmas about the world transitions. -/

lemma addCanvasNode_hit {w : World} {x y cx cy : Rat} {c : CanvasSurface} (link : String)
    (hfind : w.canvases.find? (fun c => c.viewOk && rectContains c.rect x y) = some c)
    (hapi : c.hasPosFromEvt = true)
    (hpos : c.posFromEvt = (some cx, some cy)) :
    addCanvasNode link x y w
      = { w with nodes := w.nodes ++ [⟨(cx, cy), link, 200, 50⟩] } := by
  unfold addCanvasNode
  simp [hfind, hapi, hpos]

lemma addCanvasNode_miss {w : World} {x y : Rat} (link : String)
    (hfind : w.canvases.find? (fun c => c.viewOk && rectContains c.rect x y) = none) :
    addCanvasNode link x y w = w := by
  unfold addCanvasNode
  simp [hfind]

lemma addCanvasNode_shape (link : String) (x y : Rat) (w : World) :
    ∃ ns, addCanvasNode link x y w = { w with nodes := ns } := by
  unfold addCanvasNode
  repeat' split
  all_goals exact ⟨_, rfl⟩

lemma addCanvasNode_lines (link : String) (x y : Rat) (w : World) :
    (addCanvasNode link x y w).lines = w.lines := by
  obtain ⟨ns, h⟩ := addCanvasNode_shape link x y w
  rw [h]

lemma addCanvasNode_lines_shape (link : String) (x y : Rat) (w : World) (L : List String) :
    ∃ ls ns, addCanvasNode link x y { w with lines := L }
      = { w with lines := ls, nodes := ns } := by
  obtain ⟨ns, h⟩ := addCanvasNode_shape link x y { w with lines := L }
  exact ⟨L, ns, by rw [h]⟩

lemma dropFinalize_shape (now rnd : Nat) (p : Pending) (w : World) :
    ∃ ls ns, dropFinalize now rnd p w = { w with lines := ls, nodes := ns } := by
  unfold dropFinalize
  repeat' split
  all_goals first
    | exact ⟨w.lines, w.nodes, rfl⟩
    | exact addCanvasNode_lines_shape _ _ _ w _

lemma dropFinalize_dragState (now rnd : Nat) (p : Pending) (w : World) :
    (dropFinalize now rnd p w).dragState = w.dragState := by
  obtain ⟨ls, ns, h⟩ := dropFinalize_shape now rnd p w
  rw [h]

lemma dropFinalize_styles (now rnd : Nat) (p : Pending) (w : World) :
    (dropFinalize now rnd p w).styles = w.styles := by
  obtain ⟨ls, ns, h⟩ := dropFinalize_shape now rnd p w
  rw [h]

lemma dropFinalize_bodyChildren (now rnd : Nat) (p : Pending) (w : World) :
    (dropFinalize now rnd p w).bodyChildren = w.bodyChildren := by
  obtain ⟨ls, ns, h⟩ := dropFinalize_shape now rnd p w
  rw [h]

lemma dropFinalize_nextElemId (now rnd : Nat) (p : Pending) (w : World) :
    (dropFinalize now rnd p w).nextElemId = w.nextElemId := by
  obtain ⟨ls, ns, h⟩ := dropFinalize_shape now rnd p w
  rw [h]

/-- The drop finalization neither reads nor writes the shared drag-state
field: replacing it with an arbitrary value before finalizing commutes with
the finalization. -/
lemma dropFinalize_dragState_blind (now rnd : Nat) (p : Pending) (w : World)
    (d : Option DragState) :
    dropFinalize now rnd p { w with dragState := d }
      = { dropFinalize now rnd p w with dragState := d } := by
  cases w
  simp only [dropFinalize, addCanvasNode, updateBulletInEditor]
  repeat' split
  all_goals rfl

lemma dropFinalize_not_dragging {p : Pending} (now rnd : Nat) (w : World)
    (h : p.dragging = false) : dropFinalize now rnd p w = w := by
  unfold dropFinalize
  simp [h]

lemma dropFinalize_nonfinite {p : Pending} (now rnd : Nat) (w : World)
    (h : p.clientX = none ∨ p.clientY = none) : dropFinalize now rnd p w = w := by
  unfold dropFinalize
  split
  · rcases h with h | h
    · rw [h]
    · rw [h]
      rcases hX : p.clientX with _ | x <;> rfl
  · rfl

lemma dropFinalize_new_anchor {p : Pending} {w : World} {x y : Rat} {file : FileInfo}
    (now rnd : Nat)
    (hdrag : p.dragging = true) (hx : p.clientX = some x) (hy : p.clientY = some y)
    (hfile : w.activeFile = some file) (hext : file.extension = "md")
    (hbroad : matchTrailingAnchor isIdChar p.rawLineText = none) :
    dropFinalize now rnd p w =
      addCanvasNode (blockLink file.name (generateBulletId now rnd)) x y
        { w with
            lines := updateBulletInEditor p.lineNumber p.rawLineText
              (generateBulletId now rnd) w.lines } := by
  have hnarrow : matchTrailingAnchor isWordChar p.rawLineText = none := by
    rcases hn : matchTrailingAnchor isWordChar p.rawLineText with _ | i
    · rfl
    · rw [matchTrailingAnchor_word_imp_id hn] at hbroad
      exact Option.noConfusion hbroad
  unfold dropFinalize
  simp [hdrag, hx, hy, hfile, hext, hnarrow, hbroad]

lemma dropFinalize_existing_anchor {p : Pending} {w : World} {x y : Rat} {file : FileInfo}
    {id : String} (now rnd : Nat)
    (hdrag : p.dragging = true) (hx : p.clientX = some x) (hy : p.clientY = some y)
    (hfile : w.activeFile = some file) (hext : file.extension = "md")
    (hbroad : matchTrailingAnchor isIdChar p.rawLineText = some id) :
    dropFinalize now rnd p w = addCanvasNode (blockLink file.name id) x y w := by
  rcases hn : matchTrailingAnchor isWordChar p.rawLineText with _ | i
  · unfold dropFinalize
    simp [hdrag, hx, hy, hfile, hext, hn, hbroad]
  · have hii := matchTrailingAnchor_word_imp_id hn
    rw [hbroad] at hii
    have hi : i = id := Option.some.inj hii.symm
    subst hi
    unfold dropFinalize
    simp [hdrag, hx, hy, hfile, hext, hn]

/-- When the captured line already carries an anchor recognized by the broad
regex, no path of the finalization rewrites any document line. -/
lemma dropFinalize_lines_existing {p : Pending} {w : World} {id : String} (now rnd : Nat)
    (hbroad : matchTrailingAnchor isIdChar p.rawLineText = some id) :
    (dropFinalize now rnd p w).lines = w.lines := by
  unfold dropFinalize
  repeat' split
  all_goals first
    | rfl
    | apply addCanvasNode_lines
    | simp_all

lemma onMouseUpSync_none {w : World} (e : MouseEvent) (h : w.dragState = none) :
    onMouseUpSync e w = (w, none) := by
  unfold onMouseUpSync
  rw [h]

lemma onMouseUpSync_fst_lines (e : MouseEvent) (w : World) :
    (onMouseUpSync e w).1.lines = w.lines := by
  unfold onMouseUpSync
  rcases h : w.dragState with _ | st
  · rfl
  · obtain ⟨ix, iy, dr, se, pe, ln, raw⟩ := st
    rcases pe with _ | p <;> rfl

lemma onMouseUpSync_fst_nodes (e : MouseEvent) (w : World) :
    (onMouseUpSync e w).1.nodes = w.nodes := by
  unfold onMouseUpSync
  rcases h : w.dragState with _ | st
  · rfl
  · obtain ⟨ix, iy, dr, se, pe, ln, raw⟩ := st
    rcases pe with _ | p <;> rfl

lemma onMouseUpSync_fst_activeFile (e : MouseEvent) (w : World) :
    (onMouseUpSync e w).1.activeFile = w.activeFile := by
  unfold onMouseUpSync
  rcases h : w.dragState with _ | st
  · rfl
  · obtain ⟨ix, iy, dr, se, pe, ln, raw⟩ := st
    rcases pe with _ | p <;> rfl

lemma onMouseUpSync_fst_canvases (e : MouseEvent) (w : World) :
    (onMouseUpSync e w).1.canvases = w.canvases := by
  unfold onMouseUpSync
  rcases h : w.dragState with _ | st
  · rfl
  · obtain ⟨ix, iy, dr, se, pe, ln, raw⟩ := st
    rcases pe with _ | p <;> rfl

lemma onMouseUpSync_fst_nextElemId (e : MouseEvent) (w : World) :
    (onMouseUpSync e w).1.nextElemId = w.nextElemId := by
  unfold onMouseUpSync
  rcases h : w.dragState with _ | st
  · rfl
  · obtain ⟨ix, iy, dr, se, pe, ln, raw⟩ := st
    rcases pe with _ | p <;> rfl

lemma onMouseUpSync_fst_dragState {w : World} {st : DragState} (e : MouseEvent)
    (h : w.dragState = some st) :
    (onMouseUpSync e w).1.dragState = none := by
  unfold onMouseUpSync
  rw [h]

lemma onMouseUpSync_fst_styles {w : World} {st : DragState} (e : MouseEvent)
    (h : w.dragState = some st) :
    ((onMouseUpSync e w).1.styles st.sourceEl).cursor = "" ∧
      ((onMouseUpSync e w).1.styles st.sourceEl).userSelect = "" := by
  unfold onMouseUpSync
  rw [h]
  obtain ⟨ix, iy, dr, se, pe, ln, raw⟩ := st
  rcases pe with _ | p <;> simp [setStyle]

lemma onMouseUpSync_fst_body_erase {w : World} {st : DragState} {p : Nat} (e : MouseEvent)
    (h : w.dragState = some st) (hp : st.previewEl = some p) :
    (onMouseUpSync e w).1.bodyChildren = w.bodyChildren.erase p := by
  unfold onMouseUpSync
  rw [h]
  obtain ⟨ix, iy, dr, se, pe, ln, raw⟩ := st
  cases hp
  rfl

lemma onMouseUp_eq_dropFinalize {w : World} {st : DragState} (now rnd : Nat) (e : MouseEvent)
    (h : w.dragState = some st) :
    onMouseUp now rnd e w =
      dropFinalize now rnd
        { dragging := st.dragging, lineNumber := st.lineNumber,
          rawLineText := st.rawLineText, clientX := e.clientX, clientY := e.clientY }
        (onMouseUpSync e w).1 := by
  unfold onMouseUp onMouseUpSync
  rw [h]

lemma onMouseUp_no_state (now rnd : Nat) (e : MouseEvent) (w : World)
    (h : w.dragState = none) : onMouseUp now rnd e w = w := by
  unfold onMouseUp
  rw [onMouseUpSync_none e h]

lemma onMouseDown_lines (e : MouseEvent) (w : World) :
    (onMouseDown e w).lines = w.lines := by
  unfold onMouseDown
  repeat' (first | rfl | split | dsimp only)

lemma onMouseDown_nodes (e : MouseEvent) (w : World) :
    (onMouseDown e w).nodes = w.nodes := by
  unfold onMouseDown
  repeat' (first | rfl | split | dsimp only)

/-- The press handler either leaves the drag-state field untouched, or arms a
fresh session that is not yet dragging and owns no preview element. -/
lemma onMouseDown_cases (e : MouseEvent) (w : World) :
    (onMouseDown e w).dragState = w.dragState ∨
      ∃ st : DragState, (onMouseDown e w).dragState = some st ∧
        st.dragging = false ∧ st.previewEl = none := by
  unfold onMouseDown
  repeat' (first | split | dsimp only)
  all_goals first
    | (left; rfl)
    | (right; exact ⟨_, rfl, rfl, rfl⟩)

lemma onMouseDown_fresh {e : MouseEvent} {w : World} {st : DragState}
    (h0 : w.dragState = none) (h : (onMouseDown e w).dragState = some st) :
    st.dragging = false ∧ st.previewEl = none := by
  rcases onMouseDown_cases e w with hc | ⟨st2, hc, hd, hp⟩
  · rw [h0] at hc
    rw [h] at hc
    exact Option.noConfusion hc
  · rw [h] at hc
    cases Option.some.inj hc
    exact ⟨hd, hp⟩

lemma onMouseMove_nonfinite {e : MouseEvent} (w : World)
    (h : e.clientX = none ∨ e.clientY = none) : onMouseMove e w = w := by
  unfold onMouseMove
  rcases hds : w.dragState with _ | st
  · rfl
  · rcases h with h | h
    · rw [h]
    · rw [h]
      rcases hX : e.clientX with _ | x <;> rfl

lemma onMouseMove_below_threshold {w : World} {st : DragState} (e : MouseEvent)
    (h : w.dragState = some st) (hd : st.dragging = false)
    (hmove : ∀ x y, e.clientX = some x → e.clientY = some y →
      (x - st.initialX) * (x - st.initialX) + (y - st.initialY) * (y - st.initialY)
        < DRAG_THRESHOLD * DRAG_THRESHOLD) :
    onMouseMove e w = w := by
  unfold onMouseMove
  rw [h]
  rcases hX : e.clientX with _ | x
  · rfl
  · rcases hY : e.clientY with _ | y
    · rfl
    · have hlt := hmove x y hX hY
      have hnot : ¬ ((x - st.initialX) * (x - st.initialX)
          + (y - st.initialY) * (y - st.initialY)
          > DRAG_THRESHOLD * DRAG_THRESHOLD) := by linarith
      dsimp only
      rw [hd]
      simp only [Bool.not_false, Bool.true_and, decide_eq_true_eq]
      rw [if_neg hnot, h]
      dsimp only
      rcases hp : st.previewEl with _ | p
      · rfl
      · rw [hd]
        rfl

lemma foldl_onMouseMove_fixed {moves : List MouseEvent} {w : World}
    (h : ∀ m ∈ moves, onMouseMove m w = w) :
    moves.foldl (fun acc m => onMouseMove m acc) w = w := by
  induction moves with
  | nil => rfl
  | cons m t ih =>
    rw [List.foldl_cons, h m (List.mem_cons_self m t)]
    exact ih (fun m hm => h m (List.mem_cons_of_mem _ hm))

lemma listIncludes_ne_nil {pat l : List Char} (hp : pat ≠ [])
    (h : listIncludes pat l = true) : l ≠ [] := by
  intro hl
  subst hl
  cases pat with
  | nil => exact hp rfl
  | cons c t => exact Bool.noConfusion h

/-! Concrete sample values used by the witness theorems. -/

/-- Sample drag session over line 0 of the sample document. -/
def sampleDrag : DragState :=
  { initialX := 0, initialY := 0, dragging := true, sourceEl := 1,
    previewEl := some 5, lineNumber := 0, rawLineText := "- hello" }

/-- Sample canvas leaf covering the square from 0 to 100. -/
def sampleCanvas : CanvasSurface :=
  { viewOk := true, rect := { left := 0, right := 100, top := 0, bottom := 100 },
    hasPosFromEvt := true, posFromEvt := (some 7, some 8) }

/-- Sample world: one bullet line, an active markdown file, one canvas leaf,
an in-flight drag session whose preview element 5 sits in the body. -/
def sampleWorld : World :=
  { dragState := some sampleDrag, lines := ["- hello"],
    activeFile := some { name := "Note.md", extension := "md" },
    activeMarkdownView := true, cmAvailable := true,
    posLineAt := fun _ => some 0, canvases := [sampleCanvas], nodes := [],
    styles := fun _ => {}, bodyChildren := [5], nextElemId := 6 }

/-- Sample world with no drag session in progress. -/
def sampleIdleWorld : World :=
  { sampleWorld with dragState := none }

/-- Sample release event inside the sample canvas. -/
def sampleUpEvent : MouseEvent :=
  { altKey := true, clientX := some 50, clientY := some 50, targetClosestCmLine := some 1 }

/-- Sample release event outside every canvas. -/
def sampleMissEvent : MouseEvent :=
  { altKey := true, clientX := some 200, clientY := some 200, targetClosestCmLine := some 1 }

/-- Sample qualifying press event. -/
def sampleDownEvent : MouseEvent :=
  { altKey := true, clientX := some 10, clientY := some 10, targetClosestCmLine := some 1 }

/-- Sample sub-threshold move event (distance from the press origin is
`sqrt 8 < 5`). -/
def sampleMoveEvent : MouseEvent :=
  { altKey := true, clientX := some 12, clientY := some 12, targetClosestCmLine := some 1 }

/-- Sample event with a non-finite X coordinate. -/
def sampleNanEvent : MouseEvent :=
  { altKey := true, clientX := none, clientY := some 5, targetClosestCmLine := some 1 }

/-! Claim theorems. -/

/-- C5: `truncateText` returns its input verbatim when the length is at or
below the configured maximum of 30 characters; for a longer input it returns
a string of length exactly 30 whose characters are the first 27 characters
of the input followed by the three-character ellipsis. -/
theorem C5_truncateText_spec (text : String) :
    (text.length ≤ MAX_TEXT_LENGTH → truncateText text MAX_TEXT_LENGTH = text) ∧
    (text.length > MAX_TEXT_LENGTH →
      (truncateText text MAX_TEXT_LENGTH).length = MAX_TEXT_LENGTH ∧
      (truncateText text MAX_TEXT_LENGTH).data
        = text.data.take (MAX_TEXT_LENGTH - 3) ++ ('.' :: '.' :: '.' :: [])) := by
  constructor
  · intro hle
    unfold truncateText
    rw [if_pos hle]
  · intro hgt
    have hnle : ¬ text.length ≤ MAX_TEXT_LENGTH := by omega
    have hlen : text.length = text.data.length := rfl
    unfold truncateText
    rw [if_neg hnle]
    constructor
    · rw [String.length_append]
      show (text.data.take (MAX_TEXT_LENGTH - 3)).length + ("..." : String).length
          = MAX_TEXT_LENGTH
      rw [List.length_take]
      show min (MAX_TEXT_LENGTH - 3) text.data.length + 3 = MAX_TEXT_LENGTH
      unfold MAX_TEXT_LENGTH
      unfold MAX_TEXT_LENGTH at hgt
      omega
    · rw [String.data_append]

/-- C5 witness: a short string survives verbatim, a 34-character string is
cut to exactly the maximum length. -/
theorem C5_truncateText_spec_witness :
    truncateText "short" MAX_TEXT_LENGTH = "short" ∧
      (truncateText "0123456789012345678901234567890123" MAX_TEXT_LENGTH).length
        = MAX_TEXT_LENGTH :=
  ⟨(C5_truncateText_spec "short").1 (by decide),
   ((C5_truncateText_spec "0123456789012345678901234567890123").2 (by decide)).1⟩

/-- C9: the global error observer swallows exactly one class of error: when
the event's message contains the ResizeObserver loop-completed text it stops
immediate propagation and returns false; for every other event, including one
with no message, it stops nothing and returns true. -/
theorem C9_globalErrorHandler_spec (event : ErrorEvent) :
    (∀ msg, event.message = some msg → strIncludes msg resizeObserverLoopMsg = true →
      globalErrorHandler event = { stoppedPropagation := true, returnValue := false }) ∧
    ((∀ msg, event.message = some msg → strIncludes msg resizeObserverLoopMsg = false) →
      globalErrorHandler event = { stoppedPropagation := false, returnValue := true }) := by
  constructor
  · intro msg hm hinc
    have hne : msg ≠ "" := by
      intro he
      have hld : msg.data ≠ [] :=
        listIncludes_ne_nil (by decide) hinc
      rw [he] at hld
      exact hld rfl
    unfold globalErrorHandler
    rw [hm]
    rw [if_pos]
    show (jsTruthy (some msg) && strIncludes ((some msg).getD "") resizeObserverLoopMsg) = true
    have ht : jsTruthy (some msg) = true := by
      simp [jsTruthy, hne]
    rw [ht]
    show strIncludes msg resizeObserverLoopMsg = true
    exact hinc
  · intro hall
    rcases hm : event.message with _ | msg
    · unfold globalErrorHandler
      rw [hm]
      rfl
    · have hfalse := hall msg hm
      unfold globalErrorHandler
      rw [hm]
      rw [if_neg]
      intro hcond
      have : strIncludes msg resizeObserverLoopMsg = true :=
        (Bool.and_eq_true _ _).mp hcond |>.2
      rw [hfalse] at this
      exact Bool.noConfusion this

/-- C9 witness: the handler swallows the specific message and passes a
harmless one through. -/
theorem C9_globalErrorHandler_spec_witness :
    globalErrorHandler { message := some resizeObserverLoopMsg }
        = { stoppedPropagation := true, returnValue := false } ∧
      globalErrorHandler { message := some "harmless" }
        = { stoppedPropagation := false, returnValue := true } :=
  ⟨(C9_globalErrorHandler_spec { message := some resizeObserverLoopMsg }).1
      resizeObserverLoopMsg rfl (by decide),
   (C9_globalErrorHandler_spec { message := some "harmless" }).2
      (by
        intro msg hm
        cases Option.some.inj hm
        decide)⟩

/-- C10: every generated id is `<digits>-<digits>` and so contains a hyphen;
the line rewritten by `updateBulletInEditor` ends in a space, a caret and
that id; the broad reuse regex matches the rewritten line capturing exactly
the id, while the narrow first regex never matches it — so every freshly
tagged line is recognized as already anchored on any later drop. -/
theorem C10_tag_then_detect (now rnd : Nat) (lineText : String) :
    (generateBulletId now rnd).data
        = (toString now).data ++ '-' :: (toString rnd).data ∧
    (∀ c ∈ (toString now).data, c.isDigit = true) ∧
    (∀ c ∈ (toString rnd).data, c.isDigit = true) ∧
    ('-' : Char) ∈ (generateBulletId now rnd).data ∧
    (" ^" ++ generateBulletId now rnd).data
        <:+ (taggedLine lineText (generateBulletId now rnd)).data ∧
    matchTrailingAnchor isIdChar (taggedLine lineText (generateBulletId now rnd))
        = some (generateBulletId now rnd) ∧
    matchTrailingAnchor isWordChar (taggedLine lineText (generateBulletId now rnd))
        = none := by
  refine ⟨generateBulletId_data now rnd, natRepr_all_digits now, natRepr_all_digits rnd,
    ?_, ?_, ?_, ?_⟩
  · rw [generateBulletId_data]
    exact List.mem_append.mpr (Or.inr (List.mem_cons_self _ _))
  · refine ⟨(jsTrimEnd lineText).data, ?_⟩
    show (jsTrimEnd lineText).data ++ (" ^" ++ generateBulletId now rnd).data
        = ((jsTrimEnd lineText ++ " ^") ++ generateBulletId now rnd).data
    rw [String.data_append, String.data_append, String.data_append, List.append_assoc]
  · exact matchTrailingAnchor_id_append (jsTrimEnd lineText) (generateBulletId now rnd)
      (generateBulletId_all_idChar now rnd) (generateBulletId_data_ne_nil now rnd)
  · exact matchTrailingAnchor_word_gen_none (jsTrimEnd lineText) now rnd

/-- C10 witness: the id generated from the sample host values contains a
hyphen, its first digit is a digit, and the sample tagged line is matched by
the broad regex and missed by the narrow one. -/
theorem C10_tag_then_detect_witness :
    ('-' : Char) ∈ (generateBulletId 17 42).data ∧
      ('1' : Char).isDigit = true ∧
      matchTrailingAnchor isIdChar (taggedLine "- hello" (generateBulletId 17 42))
        = some (generateBulletId 17 42) ∧
      matchTrailingAnchor isWordChar (taggedLine "- hello" (generateBulletId 17 42))
        = none :=
  ⟨(C10_tag_then_detect 17 42 "- hello").2.2.2.1,
   (C10_tag_then_detect 17 42 "- hello").2.1 '1' (by decide),
   (C10_tag_then_detect 17 42 "- hello").2.2.2.2.2.1,
   (C10_tag_then_detect 17 42 "- hello").2.2.2.2.2.2⟩

/-- C2: whenever a release reaches the asynchronous drop finalization, the
shared drag-state field is already cleared by the synchronous prefix of the
handler, and the finalization neither reads nor writes that field — so a new
press handled during the suspension can neither observe nor corrupt the
in-flight finalization, and the finalization cannot clobber the new session. -/
theorem C2_session_cleared_before_await (e : MouseEvent) (w w1 : World) (p : Pending)
    (h : onMouseUpSync e w = (w1, some p)) :
    w1.dragState = none ∧
    ∀ (now rnd : Nat) (d : Option DragState),
      dropFinalize now rnd p { w1 with dragState := d }
        = { dropFinalize now rnd p w1 with dragState := d } := by
  constructor
  · rcases hds : w.dragState with _ | st
    · rw [onMouseUpSync_none e hds] at h
      exact Option.noConfusion (congrArg Prod.snd h)
    · have hfst := onMouseUpSync_fst_dragState e hds
      rw [h] at hfst
      exact hfst
  · intro now rnd d
    exact dropFinalize_dragState_blind now rnd p w1 d

/-- C2 witness: on the sample world the synchronous prefix clears the session
and the finalization commutes with installing a fresh session. -/
theorem C2_session_cleared_before_await_witness :
    (onMouseUpSync sampleUpEvent sampleWorld).1.dragState = none ∧
      dropFinalize 17 42
          { dragging := true, lineNumber := 0, rawLineText := "- hello",
            clientX := some 50, clientY := some 50 }
          { (onMouseUpSync sampleUpEvent sampleWorld).1 with dragState := some sampleDrag }
        = { dropFinalize 17 42
              { dragging := true, lineNumber := 0, rawLineText := "- hello",
                clientX := some 50, clientY := some 50 }
              (onMouseUpSync sampleUpEvent sampleWorld).1 with
            dragState := some sampleDrag } :=
  ⟨(C2_session_cleared_before_await sampleUpEvent sampleWorld
      (onMouseUpSync sampleUpEvent sampleWorld).1
      { dragging := true, lineNumber := 0, rawLineText := "- hello",
        clientX := some 50, clientY := some 50 } rfl).1,
   (C2_session_cleared_before_await sampleUpEvent sampleWorld
      (onMouseUpSync sampleUpEvent sampleWorld).1
      { dragging := true, lineNumber := 0, rawLineText := "- hello",
        clientX := some 50, clientY := some 50 } rfl).2 17 42 (some sampleDrag)⟩

/-- C4: tearing the extension down while a drag session exists clears the
session field, and when the session owns a preview element that element is no
longer among the body's children afterwards. -/
theorem C4_unload_cleanup (w : World) (st : DragState)
    (hst : w.dragState = some st) :
    (onunload w).dragState = none ∧
    ∀ p, st.previewEl = some p → w.bodyChildren.Nodup →
      p ∉ (onunload w).bodyChildren := by
  constructor
  · rfl
  · intro p hp hnodup
    have hbody : (onunload w).bodyChildren = w.bodyChildren.erase p := by
      unfold onunload
      rw [hst]
      dsimp only
      rw [hp]
    rw [hbody]
    intro hmem
    exact ((List.Nodup.mem_erase_iff hnodup).mp hmem).1 rfl

/-- C4 witness: unloading the sample world clears the session and removes
preview element 5 from the body. -/
theorem C4_unload_cleanup_witness :
    (onunload sampleWorld).dragState = none ∧
      5 ∉ (onunload sampleWorld).bodyChildren :=
  ⟨(C4_unload_cleanup sampleWorld sampleDrag rfl).1,
   (C4_unload_cleanup sampleWorld sampleDrag rfl).2 5 rfl (by decide)⟩

/-- C7: every path through the release handler runs the cleanup: the session
field ends cleared, the source element's cursor and user-select styles end
reset, and a preview element owned by the session is no longer in the body —
regardless of whether the drop succeeded, missed, or aborted early. -/
theorem C7_cleanup_every_path (now rnd : Nat) (e : MouseEvent) (w : World) (st : DragState)
    (hst : w.dragState = some st) :
    (onMouseUp now rnd e w).dragState = none ∧
    ((onMouseUp now rnd e w).styles st.sourceEl).cursor = "" ∧
    ((onMouseUp now rnd e w).styles st.sourceEl).userSelect = "" ∧
    ∀ p, st.previewEl = some p → w.bodyChildren.Nodup →
      p ∉ (onMouseUp now rnd e w).bodyChildren := by
  rw [onMouseUp_eq_dropFinalize now rnd e hst]
  have hsty := onMouseUpSync_fst_styles e hst
  refine ⟨?_, ?_, ?_, ?_⟩
  · rw [dropFinalize_dragState]
    exact onMouseUpSync_fst_dragState e hst
  · rw [dropFinalize_styles]
    exact hsty.1
  · rw [dropFinalize_styles]
    exact hsty.2
  · intro p hp hnodup
    rw [dropFinalize_bodyChildren, onMouseUpSync_fst_body_erase e hst hp]
    intro hmem
    exact ((List.Nodup.mem_erase_iff hnodup).mp hmem).1 rfl

/-- C7 witness: releasing over the sample world clears the session, resets
the source element's styles and removes preview element 5. -/
theorem C7_cleanup_every_path_witness :
    (onMouseUp 17 42 sampleUpEvent sampleWorld).dragState = none ∧
      ((onMouseUp 17 42 sampleUpEvent sampleWorld).styles 1).cursor = "" ∧
      ((onMouseUp 17 42 sampleUpEvent sampleWorld).styles 1).userSelect = "" ∧
      5 ∉ (onMouseUp 17 42 sampleUpEvent sampleWorld).bodyChildren :=
  ⟨(C7_cleanup_every_path 17 42 sampleUpEvent sampleWorld sampleDrag rfl).1,
   (C7_cleanup_every_path 17 42 sampleUpEvent sampleWorld sampleDrag rfl).2.1,
   (C7_cleanup_every_path 17 42 sampleUpEvent sampleWorld sampleDrag rfl).2.2.1,
   (C7_cleanup_every_path 17 42 sampleUpEvent sampleWorld sampleDrag rfl).2.2.2
     5 rfl (by decide)⟩

/-- C8: a pointer event with a non-finite coordinate never mutates anything:
the press and move handlers leave the world unchanged; the release handler
performs no line rewrite, creates no canvas node and no element, leaves the
world unchanged when no session exists, and merely resets the session to
absent when one does. -/
theorem C8_nonfinite_guard (now rnd : Nat) (e : MouseEvent) (w : World)
    (h : e.clientX = none ∨ e.clientY = none) :
    onMouseDown e w = w ∧
    onMouseMove e w = w ∧
    (onMouseUp now rnd e w).lines = w.lines ∧
    (onMouseUp now rnd e w).nodes = w.nodes ∧
    (onMouseUp now rnd e w).nextElemId = w.nextElemId ∧
    (w.dragState = none → onMouseUp now rnd e w = w) ∧
    (∀ st, w.dragState = some st → (onMouseUp now rnd e w).dragState = none) := by
  have hdown : onMouseDown e w = w := by
    unfold onMouseDown
    rcases halt : e.altKey
    · rfl
    · rcases h with h | h
      · rw [h]
        rcases hY : e.clientY with _ | y <;> rfl
      · rw [h]
        rcases hX : e.clientX with _ | x <;> rfl
  have hmove : onMouseMove e w = w := onMouseMove_nonfinite w h
  refine ⟨hdown, hmove, ?_, ?_, ?_, ?_, ?_⟩
  · rcases hds : w.dragState with _ | st
    · rw [onMouseUp_no_state now rnd e w hds]
    · rw [onMouseUp_eq_dropFinalize now rnd e hds, dropFinalize_nonfinite now rnd _ h,
        onMouseUpSync_fst_lines]
  · rcases hds : w.dragState with _ | st
    · rw [onMouseUp_no_state now rnd e w hds]
    · rw [onMouseUp_eq_dropFinalize now rnd e hds, dropFinalize_nonfinite now rnd _ h,
        onMouseUpSync_fst_nodes]
  · rcases hds : w.dragState with _ | st
    · rw [onMouseUp_no_state now rnd e w hds]
    · rw [onMouseUp_eq_dropFinalize now rnd e hds, dropFinalize_nonfinite now rnd _ h,
        onMouseUpSync_fst_nextElemId]
  · intro hds
    exact onMouseUp_no_state now rnd e w hds
  · intro st hds
    rw [onMouseUp_eq_dropFinalize now rnd e hds, dropFinalize_dragState]
    exact onMouseUpSync_fst_dragState e hds

/-- C8 witness: an event with NaN X coordinate leaves the press and move
handlers inert, rewrites no line on release, and resets the sample session. -/
theorem C8_nonfinite_guard_witness :
    onMouseDown sampleNanEvent sampleWorld = sampleWorld ∧
      (onMouseUp 17 42 sampleNanEvent sampleWorld).lines = sampleWorld.lines ∧
      (onMouseUp 17 42 sampleNanEvent sampleWorld).dragState = none :=
  ⟨(C8_nonfinite_guard 17 42 sampleNanEvent sampleWorld (Or.inl rfl)).1,
   (C8_nonfinite_guard 17 42 sampleNanEvent sampleWorld (Or.inl rfl)).2.2.1,
   (C8_nonfinite_guard 17 42 sampleNanEvent sampleWorld (Or.inl rfl)).2.2.2.2.2.2
     sampleDrag rfl⟩

/-- C1: dropping a line whose captured text carries no trailing anchor token
appends exactly one token, rewriting exactly that line to its trimmed text
followed by a space, a caret and the generated id, and creates exactly one
canvas node whose text references that anchor; the tagged line is matched by
the broad reuse regex capturing the id, and any later drop whose captured
text is the tagged line performs no line rewrite at all. -/
theorem C1_anchor_idempotent
    (now rnd : Nat) (e : MouseEvent) (w : World) (st : DragState)
    (x y cx cy : Rat) (file : FileInfo) (c : CanvasSurface)
    (hst : w.dragState = some st) (hdrag : st.dragging = true)
    (hx : e.clientX = some x) (hy : e.clientY = some y)
    (hfile : w.activeFile = some file) (hext : file.extension = "md")
    (hbroad : matchTrailingAnchor isIdChar st.rawLineText = none)
    (hfind : w.canvases.find? (fun s => s.viewOk && rectContains s.rect x y) = some c)
    (hapi : c.hasPosFromEvt = true)
    (hpos : c.posFromEvt = (some cx, some cy)) :
    (onMouseUp now rnd e w).lines
        = w.lines.set st.lineNumber (taggedLine st.rawLineText (generateBulletId now rnd)) ∧
    (onMouseUp now rnd e w).nodes
        = w.nodes
          ++ [CanvasNode.mk (cx, cy) (blockLink file.name (generateBulletId now rnd)) 200 50] ∧
    matchTrailingAnchor isIdChar (taggedLine st.rawLineText (generateBulletId now rnd))
        = some (generateBulletId now rnd) ∧
    (∀ (now2 rnd2 : Nat) (w2 : World) (st2 : DragState) (e2 : MouseEvent),
      w2.dragState = some st2 →
      st2.rawLineText = taggedLine st.rawLineText (generateBulletId now rnd) →
      (onMouseUp now2 rnd2 e2 w2).lines = w2.lines) := by
  have hanchor : matchTrailingAnchor isIdChar
      (taggedLine st.rawLineText (generateBulletId now rnd))
      = some (generateBulletId now rnd) :=
    matchTrailingAnchor_id_append (jsTrimEnd st.rawLineText) (generateBulletId now rnd)
      (generateBulletId_all_idChar now rnd) (generateBulletId_data_ne_nil now rnd)
  have hfile1 : (onMouseUpSync e w).1.activeFile = some file := by
    rw [onMouseUpSync_fst_activeFile]
    exact hfile
  have hnew := dropFinalize_new_anchor (w := (onMouseUpSync e w).1)
    (p := { dragging := st.dragging, lineNumber := st.lineNumber,
            rawLineText := st.rawLineText, clientX := e.clientX, clientY := e.clientY })
    now rnd hdrag hx hy hfile1 hext hbroad
  have hfind1 : ({ (onMouseUpSync e w).1 with
        lines := updateBulletInEditor st.lineNumber st.rawLineText
          (generateBulletId now rnd) (onMouseUpSync e w).1.lines } : World).canvases.find?
        (fun s => s.viewOk && rectContains s.rect x y) = some c := by
    show (onMouseUpSync e w).1.canvases.find?
        (fun s => s.viewOk && rectContains s.rect x y) = some c
    rw [onMouseUpSync_fst_canvases]
    exact hfind
  have hhit := addCanvasNode_hit (w := { (onMouseUpSync e w).1 with
      lines := updateBulletInEditor st.lineNumber st.rawLineText
        (generateBulletId now rnd) (onMouseUpSync e w).1.lines })
    (blockLink file.name (generateBulletId now rnd)) hfind1 hapi hpos
  refine ⟨?_, ?_, hanchor, ?_⟩
  · rw [onMouseUp_eq_dropFinalize now rnd e hst, hnew, hhit]
    show updateBulletInEditor st.lineNumber st.rawLineText
        (generateBulletId now rnd) (onMouseUpSync e w).1.lines
      = w.lines.set st.lineNumber (taggedLine st.rawLineText (generateBulletId now rnd))
    rw [onMouseUpSync_fst_lines]
    rfl
  · rw [onMouseUp_eq_dropFinalize now rnd e hst, hnew, hhit]
    show (onMouseUpSync e w).1.nodes ++ _ = _
    rw [onMouseUpSync_fst_nodes]
  · intro now2 rnd2 w2 st2 e2 h2 hraw
    have hbroad2 : matchTrailingAnchor isIdChar st2.rawLineText
        = some (generateBulletId now rnd) := by
      rw [hraw]
      exact hanchor
    rw [onMouseUp_eq_dropFinalize now2 rnd2 e2 h2,
      dropFinalize_lines_existing now2 rnd2 hbroad2, onMouseUpSync_fst_lines]

/-- Sample drag session whose captured text is the tagged sample line. -/
def sampleTaggedDrag : DragState :=
  { sampleDrag with rawLineText := taggedLine "- hello" (generateBulletId 17 42) }

/-- Sample world re-dropping the now-tagged sample line. -/
def sampleTaggedWorld : World :=
  { sampleWorld with dragState := some sampleTaggedDrag }

/-- C1 witness: dropping the sample untagged line appends one anchor, creates
one node, the tagged line is recognized, and a second drop of the tagged line
leaves the document unchanged. -/
theorem C1_anchor_idempotent_witness :
    (onMouseUp 17 42 sampleUpEvent sampleWorld).lines
        = sampleWorld.lines.set 0 (taggedLine "- hello" (generateBulletId 17 42)) ∧
      (onMouseUp 17 42 sampleUpEvent sampleWorld).nodes
        = sampleWorld.nodes
          ++ [CanvasNode.mk (7, 8) (blockLink "Note.md" (generateBulletId 17 42)) 200 50] ∧
      matchTrailingAnchor isIdChar (taggedLine "- hello" (generateBulletId 17 42))
        = some (generateBulletId 17 42) ∧
      (onMouseUp 23 99 sampleUpEvent sampleTaggedWorld).lines
        = sampleTaggedWorld.lines := by
  have h := C1_anchor_idempotent 17 42 sampleUpEvent sampleWorld sampleDrag
    50 50 7 8 { name := "Note.md", extension := "md" } sampleCanvas
    rfl rfl rfl rfl rfl rfl (by rfl) (by rfl) rfl rfl
  exact ⟨h.1, h.2.1, h.2.2.1,
    h.2.2.2 23 99 sampleTaggedWorld sampleTaggedDrag sampleUpEvent rfl rfl⟩

/-- C3: a drop at a point contained in no canvas leaf's bounds creates no
canvas node; the anchor commit has nevertheless already happened, because it
precedes the canvas lookup: when the captured line had no anchor the line is
rewritten with a fresh id even though no node is created, and when it had one
the document is untouched. -/
theorem C3_miss_no_node (now rnd : Nat) (e : MouseEvent) (w : World) (st : DragState)
    (x y : Rat) (file : FileInfo)
    (hst : w.dragState = some st) (hdrag : st.dragging = true)
    (hx : e.clientX = some x) (hy : e.clientY = some y)
    (hfile : w.activeFile = some file) (hext : file.extension = "md")
    (hmiss : ∀ s ∈ w.canvases, rectContains s.rect x y = false) :
    (onMouseUp now rnd e w).nodes = w.nodes ∧
    (onMouseUp now rnd e w).lines
        = (match matchTrailingAnchor isIdChar st.rawLineText with
           | some _ => w.lines
           | none => updateBulletInEditor st.lineNumber st.rawLineText
               (generateBulletId now rnd) w.lines) := by
  have hfile1 : (onMouseUpSync e w).1.activeFile = some file := by
    rw [onMouseUpSync_fst_activeFile]
    exact hfile
  have hfind : ∀ L : List String,
      ({ (onMouseUpSync e w).1 with lines := L } : World).canvases.find?
        (fun s => s.viewOk && rectContains s.rect x y) = none := by
    intro L
    show (onMouseUpSync e w).1.canvases.find?
        (fun s => s.viewOk && rectContains s.rect x y) = none
    rw [onMouseUpSync_fst_canvases, List.find?_eq_none]
    intro s hs
    rw [hmiss s hs]
    simp
  rw [onMouseUp_eq_dropFinalize now rnd e hst]
  rcases hbroad : matchTrailingAnchor isIdChar st.rawLineText with _ | id
  · rw [dropFinalize_new_anchor now rnd hdrag hx hy hfile1 hext hbroad,
      addCanvasNode_miss _ (hfind _)]
    constructor
    · show (onMouseUpSync e w).1.nodes = w.nodes
      rw [onMouseUpSync_fst_nodes]
    · show updateBulletInEditor st.lineNumber st.rawLineText
          (generateBulletId now rnd) (onMouseUpSync e w).1.lines
        = updateBulletInEditor st.lineNumber st.rawLineText
          (generateBulletId now rnd) w.lines
      rw [onMouseUpSync_fst_lines]
  · rw [dropFinalize_existing_anchor now rnd hdrag hx hy hfile1 hext hbroad]
    have hfind0 : (onMouseUpSync e w).1.canvases.find?
        (fun s => s.viewOk && rectContains s.rect x y) = none := by
      have := hfind (onMouseUpSync e w).1.lines
      exact this
    rw [addCanvasNode_miss _ hfind0]
    exact ⟨onMouseUpSync_fst_nodes e w, onMouseUpSync_fst_lines e w⟩

/-- C3 witness: dropping the sample untagged line outside the sample canvas
creates no node while the anchor is still committed to line 0. -/
theorem C3_miss_no_node_witness :
    (onMouseUp 17 42 sampleMissEvent sampleWorld).nodes = sampleWorld.nodes ∧
      (onMouseUp 17 42 sampleMissEvent sampleWorld).lines
        = updateBulletInEditor 0 "- hello" (generateBulletId 17 42) sampleWorld.lines :=
  C3_miss_no_node 17 42 sampleMissEvent sampleWorld sampleDrag 200 200
    { name := "Note.md", extension := "md" }
    rfl rfl rfl rfl rfl rfl (by decide)

/-- C6: a qualifying press followed by moves that all stay strictly below the
5-pixel threshold distance from the press origin and then a release is a
plain click: no document line is rewritten, no canvas node is created, and
the session ends cleared. -/
theorem C6_click_no_mutation (now rnd : Nat) (eDown eUp : MouseEvent)
    (moves : List MouseEvent) (w : World) (st : DragState)
    (h0 : w.dragState = none)
    (hdown : (onMouseDown eDown w).dragState = some st)
    (hmoves : ∀ m ∈ moves, ∀ x y, m.clientX = some x → m.clientY = some y →
      (x - st.initialX) * (x - st.initialX) + (y - st.initialY) * (y - st.initialY)
        < DRAG_THRESHOLD * DRAG_THRESHOLD) :
    (onMouseUp now rnd eUp
        (moves.foldl (fun acc m => onMouseMove m acc) (onMouseDown eDown w))).lines
      = w.lines ∧
    (onMouseUp now rnd eUp
        (moves.foldl (fun acc m => onMouseMove m acc) (onMouseDown eDown w))).nodes
      = w.nodes ∧
    (onMouseUp now rnd eUp
        (moves.foldl (fun acc m => onMouseMove m acc) (onMouseDown eDown w))).dragState
      = none := by
  obtain ⟨hdragF, hprevF⟩ := onMouseDown_fresh h0 hdown
  have hfix : ∀ m ∈ moves, onMouseMove m (onMouseDown eDown w) = onMouseDown eDown w := by
    intro m hm
    exact onMouseMove_below_threshold m hdown hdragF (hmoves m hm)
  rw [foldl_onMouseMove_fixed hfix]
  rw [onMouseUp_eq_dropFinalize now rnd eUp hdown,
    dropFinalize_not_dragging now rnd _ hdragF]
  exact ⟨by rw [onMouseUpSync_fst_lines, onMouseDown_lines],
    by rw [onMouseUpSync_fst_nodes, onMouseDown_nodes],
    onMouseUpSync_fst_dragState eUp hdown⟩

/-- C6 witness: press at (10,10), one move to (12,12) (distance below 5),
then release: the sample document and canvas are untouched. -/
theorem C6_click_no_mutation_witness :
    (onMouseUp 17 42 sampleUpEvent
        ([sampleMoveEvent].foldl (fun acc m => onMouseMove m acc)
          (onMouseDown sampleDownEvent sampleIdleWorld))).lines
      = sampleIdleWorld.lines ∧
    (onMouseUp 17 42 sampleUpEvent
        ([sampleMoveEvent].foldl (fun acc m => onMouseMove m acc)
          (onMouseDown sampleDownEvent sampleIdleWorld))).nodes
      = sampleIdleWorld.nodes ∧
    (onMouseUp 17 42 sampleUpEvent
        ([sampleMoveEvent].foldl (fun acc m => onMouseMove m acc)
          (onMouseDown sampleDownEvent sampleIdleWorld))).dragState
      = none :=
  C6_click_no_mutation 17 42 sampleDownEvent sampleUpEvent [sampleMoveEvent]
    sampleIdleWorld
    { initialX := 10, initialY := 10, dragging := false, sourceEl := 1,
      previewEl := none, lineNumber := 0, rawLineText := "- hello" }
    rfl (by rfl)
    (by
      intro m hm x y hx hy
      rw [List.mem_singleton] at hm
      subst hm
      cases Option.some.inj hx
      cases Option.some.inj hy
      show (12 - 10 : Rat) * (12 - 10) + (12 - 10) * (12 - 10)
          < DRAG_THRESHOLD * DRAG_THRESHOLD
      norm_num [DRAG_THRESHOLD])

end BulletDrag
